import Mathlib

/-!
Verification of the RANS task/robot composition layer of the Isaac Lab
extension suite, as a shallow embedding in Lean 4.

The embedding covers:
* the `_get_dones` termination-flag combination of the direct RANS
  environments (`floating_platform_go_through_poses.py`,
  `leatherback_push_block.py`);
* the task-configuration registry built in `rans/tasks_cfg/__init__.py`;
* the `_reset_idx` index-resolution and logging behaviour of both
  environments, modelled as operation traces;
* the module exports of `rans/__init__.py` versus the imports of
  `leatherback_push_block.py`;
* the gym action-space configuration of the floating-platform environment;
* the step workflow ordering documented in the environment classes;
* the debug-visualization guards;
* the depth unproject/project round trip asserted by
  `run_ray_caster_camera.py`;
* the default values of `GoToPositionCfg`.

Batched boolean GPU tensors are modelled as `List Bool`, integer tensors as
`List Int`, per-environment index tensors as `List Nat`, and Python dicts as
association lists.
-/

namespace RansSpec

/-- Primitive operations performed by the environment code, used to record
call traces of `_reset_idx`, the step workflow and debug visualization. -/
inductive Op where
  | robotProcessActions
  | robotApplyActions
  | sceneWriteData
  | simStep
  | sceneUpdate
  | getDonesCall
  | getRewardsCall
  | resetIdxCall
  | getObservationsCall
  | taskResetLogs (ids : List Nat) (episode_length_buf : List Int)
  | taskComputeLogs
  | robotResetLogs (ids : List Nat) (episode_length_buf : List Int)
  | robotComputeLogs
  | extrasClearLog
  | extrasUpdateLog (d : List (String × Int))
  | superResetIdx (ids : List Nat)
  | taskReset (ids : List Nat)
  | taskCreateVis
  | taskUpdateVis
deriving DecidableEq

/-- Shallow embedding of `_get_dones` (identical in
`FloatingPlatformGoThroughPosesEnv` and `LeatherbackPushBlockEnv`):
`time_out = episode_length_buf >= max_episode_length - 1`,
`early_termination = robot_early | task_early`,
`clean_termination = robot_clean | task_clean | time_out`.
Element-wise tensor ops become `List.zipWith`/`List.map`. -/
def get_dones (robot_early robot_clean task_early task_clean : List Bool)
    (episode_length_buf : List Int) (max_episode_length : Int) :
    List Bool × List Bool :=
  let time_out := episode_length_buf.map (fun e => decide (e ≥ max_episode_length - 1))
  let early_termination := List.zipWith (· || ·) robot_early task_early
  let clean_termination :=
    List.zipWith (· || ·) (List.zipWith (· || ·) robot_clean task_clean) time_out
  (early_termination, clean_termination)

/-- The task-configuration classes registered in `rans/tasks_cfg/__init__.py`,
represented as an enumeration of the Python classes. -/
inductive TaskCfgName where
  | GoThroughPosesCfg
  | GoThroughPositionsCfg
  | GoToPoseCfg
  | GoToPositionCfg
  | PushBlockCfg
  | RaceWaypointsCfg
  | RaceWayposesCfg
  | TrackVelocitiesCfg
deriving DecidableEq

/-- First-match association-list lookup (the behaviour of a Python dict
lookup when keys are unique). -/
def assoc_get {α : Type} : List (String × α) → String → Option α
  | [], _ => none
  | (k, v) :: t, n => if k = n then some v else assoc_get t n

/-- Modelled from the spec: the `factory` class of `rans/utils/misc.py` is
described as "a name-to-configuration mapping allowing task and robot
variants to be selected and composed at environment-construction time"; its
source is not part of the extract, so it is modelled as an association list
with `register` adding a (name, configuration) binding. -/
structure Factory where
  registry : List (String × TaskCfgName)
deriving DecidableEq

/-- An empty factory, as produced by `factory()`. -/
def Factory.empty : Factory := ⟨[]⟩

/-- Modelled from the spec: `register` binds a name to a configuration
class in the mapping. -/
def Factory.register (f : Factory) (name : String) (cfg : TaskCfgName) : Factory :=
  ⟨f.registry ++ [(name, cfg)]⟩

/-- Modelled from the spec: looking a name up in the mapping. -/
def Factory.get (f : Factory) (name : String) : Option TaskCfgName :=
  assoc_get f.registry name

/-- The registry `TASK_CFG_FACTORY` as built by the module-initialization sequence of
`register` calls in `rans/tasks_cfg/__init__.py`. -/
def TASK_CFG_FACTORY : Factory :=
  ((((((((Factory.empty.register "GoThroughPoses" TaskCfgName.GoThroughPosesCfg).register
    "GoThroughPositions" TaskCfgName.GoThroughPositionsCfg).register
    "GoToPose" TaskCfgName.GoToPoseCfg).register
    "GoToPosition" TaskCfgName.GoToPositionCfg).register
    "PushBlock" TaskCfgName.PushBlockCfg).register
    "RaceWaypoints" TaskCfgName.RaceWaypointsCfg).register
    "RaceWayposes" TaskCfgName.RaceWayposesCfg).register
    "TrackVelocities" TaskCfgName.TrackVelocitiesCfg)

/-- The names registered in `TASK_CFG_FACTORY`, in registration order. -/
def registered_task_names : List String :=
  ["GoThroughPoses", "GoThroughPositions", "GoToPose", "GoToPosition",
   "PushBlock", "RaceWaypoints", "RaceWayposes", "TrackVelocities"]

/-- C1: for every environment state, `_get_dones` returns the pair whose
first component is, index-wise, the OR of the robot and task
early-termination flags, and whose second component is the OR of the robot
clean flag, the task clean flag and the time-out flag
`episode_length_buf >= max_episode_length - 1`. -/
theorem get_dones_spec (rE rC tE tC : List Bool) (buf : List Int) (m : Int)
    (i : Nat) (hrE : i < rE.length) (hrC : i < rC.length) (htE : i < tE.length)
    (htC : i < tC.length) (hbuf : i < buf.length) :
    (get_dones rE rC tE tC buf m).1[i]? = some (rE[i] || tE[i]) ∧
    (get_dones rE rC tE tC buf m).2[i]? =
      some ((rC[i] || tC[i]) || decide (buf[i] ≥ m - 1)) := by
  unfold get_dones
  constructor
  · simp [List.getElem?_zipWith, List.getElem?_eq_getElem, hrE, htE]
  · simp [List.getElem?_zipWith, List.getElem?_map, List.getElem?_eq_getElem,
      hrC, htC, hbuf]

/-- Witness for `get_dones_spec` at a concrete state. -/
theorem get_dones_spec_witness :
    (get_dones [true] [false] [false] [true] [5] 6).1[0]? = some true ∧
    (get_dones [true] [false] [false] [true] [5] 6).2[0]? = some true := by
  have h := get_dones_spec [true] [false] [false] [true] [5] 6 0
    (by decide) (by decide) (by decide) (by decide) (by decide)
  simpa using h

/-- C2: after the module-initialization sequence of `register` calls, each of
the eight registered names looks up to exactly the configuration class
registered under it, and any name outside the registered set looks up to
nothing. -/
theorem task_cfg_factory_roundtrip :
    (TASK_CFG_FACTORY.get "GoThroughPoses" = some TaskCfgName.GoThroughPosesCfg ∧
     TASK_CFG_FACTORY.get "GoThroughPositions" = some TaskCfgName.GoThroughPositionsCfg ∧
     TASK_CFG_FACTORY.get "GoToPose" = some TaskCfgName.GoToPoseCfg ∧
     TASK_CFG_FACTORY.get "GoToPosition" = some TaskCfgName.GoToPositionCfg ∧
     TASK_CFG_FACTORY.get "PushBlock" = some TaskCfgName.PushBlockCfg ∧
     TASK_CFG_FACTORY.get "RaceWaypoints" = some TaskCfgName.RaceWaypointsCfg ∧
     TASK_CFG_FACTORY.get "RaceWayposes" = some TaskCfgName.RaceWayposesCfg ∧
     TASK_CFG_FACTORY.get "TrackVelocities" = some TaskCfgName.TrackVelocitiesCfg) ∧
    ∀ n : String, n ∉ registered_task_names → TASK_CFG_FACTORY.get n = none := by
  constructor
  · refine ⟨?_, ?_, ?_, ?_, ?_, ?_, ?_, ?_⟩ <;> rfl
  · intro n hn
    simp only [registered_task_names, List.mem_cons, List.not_mem_nil, or_false,
      not_or] at hn
    obtain ⟨h1, h2, h3, h4, h5, h6, h7, h8⟩ := hn
    simp [TASK_CFG_FACTORY, Factory.get, Factory.register, Factory.empty,
      assoc_get, Ne.symm h1, Ne.symm h2, Ne.symm h3, Ne.symm h4, Ne.symm h5,
      Ne.symm h6, Ne.symm h7, Ne.symm h8]

/-- Witness for `task_cfg_factory_roundtrip`: a name never registered looks
up to nothing. -/
theorem task_cfg_factory_roundtrip_witness :
    TASK_CFG_FACTORY.get "DockToTarget" = none :=
  task_cfg_factory_roundtrip.2 "DockToTarget" (by decide)

/-- Shallow embedding of the `env_ids` resolution shared by both
`_reset_idx` implementations: `if (env_ids is None) or
(len(env_ids) == self.num_envs): env_ids = self.robot._ALL_INDICES`. -/
def resolve_env_ids (env_ids : Option (List Nat)) (num_envs : Nat)
    (all_indices : List Nat) : List Nat :=
  match env_ids with
  | none => all_indices
  | some ids => if ids.length = num_envs then all_indices else ids

/-- Trace of `FloatingPlatformGoThroughPosesEnv._reset_idx`: after resolving
`env_ids` it calls `super()._reset_idx(env_ids)` and then
`self.task_api.reset(env_ids)`; it performs no logging. -/
def fp_reset_idx (env_ids : Option (List Nat)) (num_envs : Nat)
    (all_indices : List Nat) : List Op :=
  let ids := resolve_env_ids env_ids num_envs all_indices
  [Op.superResetIdx ids, Op.taskReset ids]

/-- Trace of `LeatherbackPushBlockEnv._reset_idx`: after resolving `env_ids`
it resets the task logs, computes the task logs, resets the robot logs,
computes the robot logs, clears `extras["log"]`, updates it with the task
logs then with the robot logs, calls `super()._reset_idx(env_ids)` and
finally `self.task_api.reset(env_ids)`. -/
def leatherback_reset_idx (env_ids : Option (List Nat)) (num_envs : Nat)
    (all_indices : List Nat) (episode_length_buf : List Int)
    (task_logs robot_logs : List (String × Int)) : List Op :=
  let ids := resolve_env_ids env_ids num_envs all_indices
  [Op.taskResetLogs ids episode_length_buf, Op.taskComputeLogs,
   Op.robotResetLogs ids episode_length_buf, Op.robotComputeLogs,
   Op.extrasClearLog, Op.extrasUpdateLog task_logs, Op.extrasUpdateLog robot_logs,
   Op.superResetIdx ids, Op.taskReset ids]

/-- Recognizes the `task_api.reset` call in a trace. -/
def isTaskReset : Op → Bool
  | Op.taskReset _ => true
  | _ => false

/-- Recognizes any logging operation (log reset, log computation, or an
update of the `extras["log"]` dictionary). -/
def isLogOp : Op → Bool
  | Op.taskResetLogs _ _ => true
  | Op.taskComputeLogs => true
  | Op.robotResetLogs _ _ => true
  | Op.robotComputeLogs => true
  | Op.extrasClearLog => true
  | Op.extrasUpdateLog _ => true
  | _ => false

/-- Recognizes an update of the `extras["log"]` dictionary. -/
def isExtrasUpdate : Op → Bool
  | Op.extrasUpdateLog _ => true
  | _ => false

/-- Python dict assignment `d[k] = v` on an association list: overwrite the
binding of `k` in place if present, append it otherwise. -/
def dict_set : List (String × Int) → String → Int → List (String × Int)
  | [], k, v => [(k, v)]
  | (k', v') :: t, k, v =>
      if k' = k then (k', v) :: t else (k', v') :: dict_set t k v

/-- Python `d.update(u)`: assign every binding of `u` into `d`, left to
right. -/
def dict_update (d u : List (String × Int)) : List (String × Int) :=
  u.foldl (fun a kv => dict_set a kv.1 kv.2) d

/-- The contents of `extras["log"]` after `LeatherbackPushBlockEnv._reset_idx`:
an empty dict updated with the task logs, then with the robot logs. -/
def leatherback_extras_log (task_logs robot_logs : List (String × Int)) :
    List (String × Int) :=
  dict_update (dict_update [] task_logs) robot_logs

/-- Lookup after a dict assignment: the assigned key reads back the assigned
value, other keys are untouched. -/
theorem assoc_get_dict_set (d : List (String × Int)) (k k' : String) (v : Int) :
    assoc_get (dict_set d k v) k' = if k = k' then some v else assoc_get d k' := by
  induction d with
  | nil => simp [dict_set, assoc_get]
  | cons hd t ih =>
    obtain ⟨k₀, v₀⟩ := hd
    by_cases h0 : k₀ = k
    · subst h0
      by_cases h1 : k₀ = k'
      · subst h1
        simp [dict_set, assoc_get]
      · simp [dict_set, assoc_get, h1]
    · by_cases h1 : k₀ = k'
      · subst h1
        simp [dict_set, assoc_get, h0, Ne.symm h0]
      · simp [dict_set, assoc_get, h0, h1, ih]

/-- A key absent from an association list looks up to nothing. -/
theorem assoc_get_eq_none_of_not_mem (u : List (String × Int)) (k : String)
    (h : k ∉ u.map Prod.fst) : assoc_get u k = none := by
  induction u with
  | nil => rfl
  | cons hd t ih =>
    simp only [List.map_cons, List.mem_cons, not_or] at h
    simp [assoc_get, Ne.symm h.1, ih h.2]

/-- Lookup after `dict_update`: a key bound in the update (whose keys are
unique) reads the updated value, other keys fall back to the original
dictionary. -/
theorem assoc_get_dict_update (d u : List (String × Int)) (k : String)
    (hu : (u.map Prod.fst).Nodup) :
    assoc_get (dict_update d u) k =
      match assoc_get u k with
      | some v => some v
      | none => assoc_get d k := by
  induction u generalizing d with
  | nil => simp [dict_update, assoc_get]
  | cons hd t ih =>
    obtain ⟨k₀, v₀⟩ := hd
    simp only [List.map_cons, List.nodup_cons] at hu
    have step : dict_update d ((k₀, v₀) :: t) = dict_update (dict_set d k₀ v₀) t := rfl
    rw [step, ih (dict_set d k₀ v₀) hu.2]
    by_cases hk : k₀ = k
    · subst hk
      have ht : assoc_get t k₀ = none := assoc_get_eq_none_of_not_mem t k₀ hu.1
      simp [ht, assoc_get, assoc_get_dict_set]
    · simp [assoc_get, hk, assoc_get_dict_set]

/-- C3: when `env_ids` is `None` or has length `num_envs`, the reset is
applied to the robot's `_ALL_INDICES`; and in every case both environments
invoke `task_api.reset` exactly once, with the resolved index set. -/
theorem reset_idx_spec (env_ids : Option (List Nat)) (num_envs : Nat)
    (all_indices : List Nat) (buf : List Int)
    (task_logs robot_logs : List (String × Int)) :
    ((env_ids = none ∨ ∃ ids, env_ids = some ids ∧ ids.length = num_envs) →
      resolve_env_ids env_ids num_envs all_indices = all_indices) ∧
    (fp_reset_idx env_ids num_envs all_indices).filter isTaskReset =
      [Op.taskReset (resolve_env_ids env_ids num_envs all_indices)] ∧
    (leatherback_reset_idx env_ids num_envs all_indices buf task_logs
        robot_logs).filter isTaskReset =
      [Op.taskReset (resolve_env_ids env_ids num_envs all_indices)] := by
  refine ⟨?_, rfl, rfl⟩
  rintro (h | ⟨ids, rfl, hlen⟩)
  · subst h; rfl
  · simp [resolve_env_ids, hlen]

/-- Witness for `reset_idx_spec`: a full-length `env_ids` resolves to
`_ALL_INDICES`. -/
theorem reset_idx_spec_witness :
    resolve_env_ids (some [1, 0]) 2 [0, 1] = [0, 1] :=
  (reset_idx_spec (some [1, 0]) 2 [0, 1] [] [] []).1
    (Or.inr ⟨[1, 0], rfl, by decide⟩)

/-- C4 counterexample: `FloatingPlatformGoThroughPosesEnv._reset_idx`
performs no logging operation at all, so it is false that each RANS
environment's `_reset_idx` resets the task and robot logs and stores their
union in `extras["log"]`. -/
theorem fp_reset_idx_counterexample :
    fp_reset_idx (some [0]) 2 [0, 1] = [Op.superResetIdx [0], Op.taskReset [0]] ∧
    (fp_reset_idx (some [0]) 2 [0, 1]).any isLogOp = false := by
  exact ⟨rfl, rfl⟩

/-- C4 (amended): `LeatherbackPushBlockEnv._reset_idx` resets the task logs
and the robot logs for the resolved indices and stores under `extras["log"]`
the union of the task's computed logs and the robot's computed logs (the
robot's value winning on a shared key), while the floating-platform
environment's `_reset_idx` performs no logging. -/
theorem leatherback_reset_idx_logging (env_ids : Option (List Nat))
    (num_envs : Nat) (all_indices : List Nat) (buf : List Int)
    (task_logs robot_logs : List (String × Int)) (k : String)
    (htl : (task_logs.map Prod.fst).Nodup) (hrl : (robot_logs.map Prod.fst).Nodup) :
    Op.taskResetLogs (resolve_env_ids env_ids num_envs all_indices) buf ∈
      leatherback_reset_idx env_ids num_envs all_indices buf task_logs robot_logs ∧
    Op.robotResetLogs (resolve_env_ids env_ids num_envs all_indices) buf ∈
      leatherback_reset_idx env_ids num_envs all_indices buf task_logs robot_logs ∧
    (leatherback_reset_idx env_ids num_envs all_indices buf task_logs
        robot_logs).filter isExtrasUpdate =
      [Op.extrasUpdateLog task_logs, Op.extrasUpdateLog robot_logs] ∧
    assoc_get (leatherback_extras_log task_logs robot_logs) k =
      (match assoc_get robot_logs k with
       | some v => some v
       | none => assoc_get task_logs k) ∧
    (fp_reset_idx env_ids num_envs all_indices).any isLogOp = false := by
  refine ⟨?_, ?_, rfl, ?_, rfl⟩
  · simp [leatherback_reset_idx]
  · simp [leatherback_reset_idx]
  · rw [leatherback_extras_log, assoc_get_dict_update _ robot_logs k hrl,
      assoc_get_dict_update _ task_logs k htl]
    cases assoc_get robot_logs k <;> cases assoc_get task_logs k <;>
      simp [assoc_get]

/-- Witness for `leatherback_reset_idx_logging` at a concrete state: the
robot log value wins on the shared key. -/
theorem leatherback_reset_idx_logging_witness :
    assoc_get (leatherback_extras_log [("reward", 1), ("dist", 2)]
      [("reward", 3)]) "reward" = some 3 := by
  have h := leatherback_reset_idx_logging (some [0]) 2 [0, 1] []
    [("reward", 1), ("dist", 2)] [("reward", 3)] "reward"
    (by decide) (by decide)
  simpa using h.2.2.2.1

/-- The names bound at top level by `rans/__init__.py` (the union of its
`from ... import ...` lists). -/
def rans_exports : List String :=
  ["FloatingPlatformRobotCfg", "LeatherbackRobotCfg", "RobotCoreCfg", "JetbotRobotCfg",
   "FloatingPlatformRobot", "LeatherbackRobot", "RobotCore", "JetbotRobot",
   "GoThroughPosesCfg", "GoThroughPositionsCfg", "GoToPoseCfg", "GoToPositionCfg",
   "RaceWaypointsCfg", "RaceWayposesCfg", "TaskCoreCfg", "TrackVelocitiesCfg",
   "GoThroughPosesTask", "GoThroughPositionsTask", "GoToPoseTask", "GoToPositionTask",
   "RaceWaypointsTask", "RaceWayposesTask", "TaskCore", "TrackVelocitiesTask",
   "TrackGenerator", "PerEnvSeededRNG"]

/-- The names `leatherback_push_block.py` imports from
`omni.isaac.lab_tasks.rans` (its line 20). -/
def leatherback_rans_imports : List String :=
  ["LeatherbackRobot", "LeatherbackRobotCfg", "PushBlockCfg", "PushBlockTask"]

/-- C5: `PushBlockCfg` and `PushBlockTask` are imported from the `rans`
package by `leatherback_push_block.py` and `PushBlock` is registered in
`TASK_CFG_FACTORY`, yet neither name is among the names `rans/__init__.py`
binds — the import cannot succeed, contradicting the claim that every
registered variant (including PushBlock) is reachable through the package's
public interface. -/
theorem push_block_not_exported :
    "PushBlockCfg" ∈ leatherback_rans_imports ∧
    "PushBlockTask" ∈ leatherback_rans_imports ∧
    TASK_CFG_FACTORY.get "PushBlock" = some TaskCfgName.PushBlockCfg ∧
    "PushBlockCfg" ∉ rans_exports ∧
    "PushBlockTask" ∉ rans_exports := by
  refine ⟨by decide, by decide, rfl, by decide, by decide⟩

/-- Gymnasium spaces, as far as the floating-platform environment uses
them. -/
inductive GymSpace where
  | discrete (n : Nat)
  | multiBinary (n : Nat)
  | box (low high : Int) (shape : Nat)
  | tuple (ss : List GymSpace)

/-- The fields of `FloatingPlatformRobotCfg` relevant to the action space,
with their source defaults: `is_reaction_wheel = False`,
`num_thrusters = 8`. -/
structure FloatingPlatformRobotCfg where
  is_reaction_wheel : Bool := false
  num_thrusters : Nat := 8
deriving DecidableEq

/-- The default `FloatingPlatformRobotCfg()` used by
`FloatingPlatformGoThroughPosesEnvCfg`. -/
def fp_default_cfg : FloatingPlatformRobotCfg := {}

/-- The cfg-level `action_space` of `FloatingPlatformRobotCfg`:
`MultiBinary(num_thrusters)` without a reaction wheel, otherwise a tuple of
`MultiBinary(num_thrusters)` and a one-dimensional box. -/
def fp_cfg_action_space (c : FloatingPlatformRobotCfg) : GymSpace :=
  if ¬ c.is_reaction_wheel then GymSpace.multiBinary c.num_thrusters
  else GymSpace.tuple [GymSpace.multiBinary c.num_thrusters, GymSpace.box (-1) 1 1]

/-- The `single_action_space` as set by
`FloatingPlatformGoThroughPosesEnv._configure_gym_env_spaces`:
`spaces.Tuple([spaces.Discrete(2)] * num_thrusters)`. -/
def fp_single_action_space (c : FloatingPlatformRobotCfg) : GymSpace :=
  GymSpace.tuple (List.replicate c.num_thrusters (GymSpace.discrete 2))

/-- Modelled from the spec: gymnasium's `vector.utils.batch_space`, which the
spec describes as batching the per-environment space over the N parallel
environment instances, modelled as replication over `num_envs`. -/
def batch_space (s : GymSpace) (num_envs : Nat) : GymSpace :=
  GymSpace.tuple (List.replicate num_envs s)

/-- The `action_space` as set by `_configure_gym_env_spaces`:
`vector.utils.batch_space(single_action_space, num_envs)`. -/
def fp_action_space (c : FloatingPlatformRobotCfg) (num_envs : Nat) : GymSpace :=
  batch_space (fp_single_action_space c) num_envs

/-- The field `num_actions = 8 if not robot_cfg.is_reaction_wheel else 9` from
`FloatingPlatformGoThroughPosesEnvCfg`. -/
def fp_num_actions (c : FloatingPlatformRobotCfg) : Nat :=
  if ¬ c.is_reaction_wheel then 8 else 9

/-- C6: with the default configuration the single-environment action space
is a tuple of 8 two-valued discrete actions, the batched action space is
that space replicated over `num_envs`, and `num_actions` is 8 without a
reaction wheel and 9 with one. -/
theorem fp_action_space_spec (num_envs : Nat) :
    fp_default_cfg.num_thrusters = 8 ∧
    fp_default_cfg.is_reaction_wheel = false ∧
    fp_single_action_space fp_default_cfg =
      GymSpace.tuple (List.replicate 8 (GymSpace.discrete 2)) ∧
    fp_action_space fp_default_cfg num_envs =
      batch_space (fp_single_action_space fp_default_cfg) num_envs ∧
    fp_num_actions fp_default_cfg = 8 ∧
    fp_num_actions { fp_default_cfg with is_reaction_wheel := true } = 9 :=
  ⟨rfl, rfl, rfl, rfl, rfl, rfl⟩

/-- The task-visualization state touched by the debug-visualization hooks:
whether the visualization has been created, and how many updates it has
received. -/
structure VisState where
  created : Bool
  updates : Nat
deriving DecidableEq

/-- The call `task_api.create_task_visualization()`. -/
def create_task_visualization (s : VisState) : VisState :=
  { s with created := true }

/-- The call `task_api.update_task_visualization()`. -/
def update_task_visualization (s : VisState) : VisState :=
  { s with updates := s.updates + 1 }

/-- Embedding of `_set_debug_vis_impl(debug_vis)`: it creates the task visualization only
when the flag is true; returns the new state and the trace of task-API
calls. -/
def set_debug_vis_impl (debug_vis : Bool) (s : VisState) : VisState × List Op :=
  if debug_vis then (create_task_visualization s, [Op.taskCreateVis]) else (s, [])

/-- Embedding of `_debug_vis_callback(event)`: it updates the task visualization only when
`cfg.debug_vis` is true; returns the new state and the trace of task-API
calls. -/
def debug_vis_callback (cfg_debug_vis : Bool) (s : VisState) : VisState × List Op :=
  if cfg_debug_vis then (update_task_visualization s, [Op.taskUpdateVis]) else (s, [])

/-- C8: with the flag false, `_set_debug_vis_impl` and `_debug_vis_callback`
make no task-API call and leave the visualization state unchanged; with the
flag true, `_set_debug_vis_impl` creates the visualization and every
`_debug_vis_callback` invocation updates it. -/
theorem debug_vis_spec (s : VisState) :
    set_debug_vis_impl false s = (s, []) ∧
    debug_vis_callback false s = (s, []) ∧
    (set_debug_vis_impl true s).1.created = true ∧
    (set_debug_vis_impl true s).2 = [Op.taskCreateVis] ∧
    (debug_vis_callback true s).1.updates = s.updates + 1 ∧
    (debug_vis_callback true s).2 = [Op.taskUpdateVis] :=
  ⟨rfl, rfl, rfl, rfl, rfl, rfl⟩

/-- One physics substep of the documented step workflow:
`_apply_action`, `scene.write_data_to_sim()`, `sim.step()`,
`scene.update()`. `_apply_action` delegates to `robot_api.apply_actions`. -/
def phys_substep : List Op :=
  [Op.robotApplyActions, Op.sceneWriteData, Op.simStep, Op.sceneUpdate]

/-- The physics loop: `decimation` repetitions of `phys_substep`. -/
def phys_loop : Nat → List Op
  | 0 => []
  | n + 1 => phys_substep ++ phys_loop n

/-- Modelled from the spec: the externally-owned step loop ("the host steps
physics, then queries RobotAbstraction and TaskAbstraction for
actions/observations/rewards/dones"), laid out as in the Workflow comment of
both environment classes: `_pre_physics_step` (which calls
`robot_api.process_actions`), the physics loop, `_get_dones`, `_get_rewards`,
`_reset_idx` when a reset is required, and `_get_observations` last. -/
def step_trace (decimation : Nat) (reset_required : Bool) : List Op :=
  [Op.robotProcessActions] ++ phys_loop decimation ++
    [Op.getDonesCall] ++ [Op.getRewardsCall] ++
    (if reset_required then [Op.resetIdxCall] else []) ++
    [Op.getObservationsCall]

/-- The relation `precedes t a b` holds when the trace `t` splits at some point with all
occurrences of `a` before the split and all occurrences of `b` after it. -/
def precedes (t : List Op) (a b : Op) : Prop :=
  ∃ n, a ∉ t.drop n ∧ b ∉ t.take n

/-- The relation `precedes` really is positional: every index holding `a` is strictly
below every index holding `b`. -/
theorem precedes_lt {t : List Op} {a b : Op} (h : precedes t a b) (i j : Nat)
    (hia : t[i]? = some a) (hjb : t[j]? = some b) : i < j := by
  obtain ⟨n, ha, hb⟩ := h
  have hin : i < n := by
    by_contra hni
    push_neg at hni
    apply ha
    have hdrop : (t.drop n)[i - n]? = some a := by
      rw [List.getElem?_drop, show n + (i - n) = i from by omega]
      exact hia
    exact List.getElem?_mem hdrop
  have hjn : n ≤ j := by
    by_contra hnj
    push_neg at hnj
    apply hb
    have htake : (t.take n)[j]? = some b := by
      rw [List.getElem?_take, if_pos hnj]
      exact hjb
    exact List.getElem?_mem htake
  omega

/-- Splitting an append proves `precedes`. -/
theorem precedes_append (xs ys : List Op) (a b : Op) (ha : a ∉ ys) (hb : b ∉ xs) :
    precedes (xs ++ ys) a b :=
  ⟨xs.length, by simpa [List.drop_left] using ha, by simpa [List.take_left] using hb⟩

/-- Non-membership distributes over append. -/
theorem not_mem_append {x : Op} {l1 l2 : List Op} (h1 : x ∉ l1) (h2 : x ∉ l2) :
    x ∉ l1 ++ l2 := by
  intro h
  rcases List.mem_append.mp h with h | h
  · exact h1 h
  · exact h2 h

/-- Membership in the physics loop is membership in one substep. -/
theorem mem_phys_loop (x : Op) (d : Nat) :
    x ∈ phys_loop d ↔ x ∈ phys_substep ∧ 0 < d := by
  induction d with
  | zero => simp [phys_loop]
  | succ n ih =>
    simp only [phys_loop, List.mem_append, ih]
    constructor
    · rintro (h | ⟨h, _⟩) <;> exact ⟨h, Nat.succ_pos n⟩
    · rintro ⟨h, _⟩
      exact Or.inl h

/-- An operation outside `phys_substep` never appears in the physics loop. -/
theorem not_mem_phys_loop (x : Op) (h : x ∉ phys_substep) (d : Nat) :
    x ∉ phys_loop d := by
  rw [mem_phys_loop]
  rintro ⟨hx, _⟩
  exact h hx

/-- An operation other than `_reset_idx` never appears in the conditional
reset segment. -/
theorem not_mem_reset_if (r : Bool) (x : Op) (h : x ≠ Op.resetIdxCall) :
    x ∉ (if r then [Op.resetIdxCall] else []) := by
  cases r <;> simp_all

/-- Occurrence counts in the physics loop scale with the decimation. -/
theorem phys_loop_count (x : Op) (d : Nat) :
    (phys_loop d).count x = d * phys_substep.count x := by
  induction d with
  | zero => simp [phys_loop]
  | succ n ih => simp [phys_loop, List.count_append, ih, Nat.succ_mul, Nat.add_comm]

/-- The conditional reset segment contributes no occurrence of any other
operation. -/
theorem count_reset_if (r : Bool) (x : Op) (h : x ≠ Op.resetIdxCall) :
    (if r then [Op.resetIdxCall] else []).count x = 0 := by
  cases r <;> simp_all [List.count_cons]

/-- Membership in the conditional reset segment. -/
theorem mem_reset_if (r : Bool) (x : Op) :
    x ∈ (if r then [Op.resetIdxCall] else []) ↔ (r = true ∧ x = Op.resetIdxCall) := by
  cases r <;> simp

/-- C7: within one environment step, `process_actions` runs exactly once and
before any physics substep (and before any `apply_actions`), `apply_actions`
and `sim.step` each run once per physics substep, dones are computed only
after all physics stepping, then rewards, then the conditional per-index
reset, and observations are computed last; no reset happens when none is
required, and no debug-visualization call appears in the step sequence. -/
theorem step_workflow_order (d : Nat) (r : Bool) :
    (step_trace d r).count Op.robotProcessActions = 1 ∧
    (step_trace d r).count Op.robotApplyActions = d ∧
    (step_trace d r).count Op.simStep = d ∧
    (step_trace d r).count Op.getDonesCall = 1 ∧
    (step_trace d r).count Op.getObservationsCall = 1 ∧
    precedes (step_trace d r) Op.robotProcessActions Op.robotApplyActions ∧
    precedes (step_trace d r) Op.robotProcessActions Op.simStep ∧
    precedes (step_trace d r) Op.robotApplyActions Op.getDonesCall ∧
    precedes (step_trace d r) Op.simStep Op.getDonesCall ∧
    precedes (step_trace d r) Op.getDonesCall Op.getRewardsCall ∧
    precedes (step_trace d r) Op.getRewardsCall Op.resetIdxCall ∧
    precedes (step_trace d r) Op.resetIdxCall Op.getObservationsCall ∧
    precedes (step_trace d r) Op.getRewardsCall Op.getObservationsCall ∧
    Op.resetIdxCall ∉ step_trace d false ∧
    Op.taskUpdateVis ∉ step_trace d r ∧
    Op.taskCreateVis ∉ step_trace d r := by
  have hE1 : step_trace d r = [Op.robotProcessActions] ++
      (phys_loop d ++ [Op.getDonesCall] ++ [Op.getRewardsCall] ++
        (if r then [Op.resetIdxCall] else []) ++ [Op.getObservationsCall]) := by
    simp [step_trace, List.append_assoc]
  have hE2 : step_trace d r = ([Op.robotProcessActions] ++ phys_loop d) ++
      ([Op.getDonesCall] ++ [Op.getRewardsCall] ++
        (if r then [Op.resetIdxCall] else []) ++ [Op.getObservationsCall]) := by
    simp [step_trace, List.append_assoc]
  have hE3 : step_trace d r = ([Op.robotProcessActions] ++ phys_loop d ++
      [Op.getDonesCall]) ++ ([Op.getRewardsCall] ++
        (if r then [Op.resetIdxCall] else []) ++ [Op.getObservationsCall]) := by
    simp [step_trace, List.append_assoc]
  have hE4 : step_trace d r = ([Op.robotProcessActions] ++ phys_loop d ++
      [Op.getDonesCall] ++ [Op.getRewardsCall]) ++
      ((if r then [Op.resetIdxCall] else []) ++ [Op.getObservationsCall]) := by
    simp [step_trace, List.append_assoc]
  have hE5 : step_trace d r = ([Op.robotProcessActions] ++ phys_loop d ++
      [Op.getDonesCall] ++ [Op.getRewardsCall] ++
      (if r then [Op.resetIdxCall] else [])) ++ [Op.getObservationsCall] := rfl
  refine ⟨?_, ?_, ?_, ?_, ?_, ?_, ?_, ?_, ?_, ?_, ?_, ?_, ?_, ?_, ?_, ?_⟩
  · simp [step_trace, List.count_append, phys_loop_count,
      count_reset_if r Op.robotProcessActions (by decide), phys_substep,
      List.count_cons, List.count_nil, beq_iff_eq]
  · simp [step_trace, List.count_append, phys_loop_count,
      count_reset_if r Op.robotApplyActions (by decide), phys_substep,
      List.count_cons, List.count_nil, beq_iff_eq]
  · simp [step_trace, List.count_append, phys_loop_count,
      count_reset_if r Op.simStep (by decide), phys_substep,
      List.count_cons, List.count_nil, beq_iff_eq]
  · simp [step_trace, List.count_append, phys_loop_count,
      count_reset_if r Op.getDonesCall (by decide), phys_substep,
      List.count_cons, List.count_nil, beq_iff_eq]
  · simp [step_trace, List.count_append, phys_loop_count,
      count_reset_if r Op.getObservationsCall (by decide), phys_substep,
      List.count_cons, List.count_nil, beq_iff_eq]
  · rw [hE1]
    refine precedes_append _ _ _ _ ?_ ?_
    · simp [List.mem_append, mem_phys_loop, mem_reset_if, phys_substep]
    · simp
  · rw [hE1]
    refine precedes_append _ _ _ _ ?_ ?_
    · simp [List.mem_append, mem_phys_loop, mem_reset_if, phys_substep]
    · simp
  · rw [hE2]
    refine precedes_append _ _ _ _ ?_ ?_
    · simp [List.mem_append, mem_reset_if]
    · simp [List.mem_append, mem_phys_loop, phys_substep]
  · rw [hE2]
    refine precedes_append _ _ _ _ ?_ ?_
    · simp [List.mem_append, mem_reset_if]
    · simp [List.mem_append, mem_phys_loop, phys_substep]
  · rw [hE3]
    refine precedes_append _ _ _ _ ?_ ?_
    · simp [List.mem_append, mem_reset_if]
    · simp [List.mem_append, mem_phys_loop, phys_substep]
  · rw [hE4]
    refine precedes_append _ _ _ _ ?_ ?_
    · simp [List.mem_append, mem_reset_if]
    · simp [List.mem_append, mem_phys_loop, phys_substep]
  · rw [hE5]
    refine precedes_append _ _ _ _ ?_ ?_
    · simp
    · simp [List.mem_append, mem_phys_loop, mem_reset_if, phys_substep]
  · rw [hE5]
    refine precedes_append _ _ _ _ ?_ ?_
    · simp
    · simp [List.mem_append, mem_phys_loop, mem_reset_if, phys_substep]
  · simp [step_trace, List.mem_append, mem_phys_loop, phys_substep]
  · simp [step_trace, List.mem_append, mem_phys_loop, mem_reset_if, phys_substep]
  · simp [step_trace, List.mem_append, mem_phys_loop, mem_reset_if, phys_substep]

/-- A pinhole camera intrinsic matrix, reduced to its four non-trivial
entries (focal lengths and principal point). -/
structure CameraIntrinsics where
  fx : ℚ
  fy : ℚ
  cx : ℚ
  cy : ℚ

/-- Modelled from the spec: `unproject_depth` of the math utilities, whose
source is not part of the extract — per pixel `(u, v)` of a depth image it
inverts the pinhole model, producing the camera-frame point
`((u - cx) * d / fx, (v - cy) * d / fy, d)`. Arithmetic is exact (ℚ) rather
than floating point. -/
def unproject_depth (K : CameraIntrinsics) (u v d : ℚ) : ℚ × ℚ × ℚ :=
  ((u - K.cx) * d / K.fx, (v - K.cy) * d / K.fy, d)

/-- Modelled from the spec: `project_points` of the math utilities, whose
source is not part of the extract — it applies the intrinsic matrix to a
camera-frame point and normalizes the pixel coordinates by the depth,
returning `(u, v, depth)` with the depth kept as the last component (the
component the ray-caster script reads back as `reproj_points[..., -1]`). -/
def project_points (K : CameraIntrinsics) (p : ℚ × ℚ × ℚ) : ℚ × ℚ × ℚ :=
  ((K.fx * p.1 + K.cx * p.2.2) / p.2.2, (K.fy * p.2.1 + K.cy * p.2.2) / p.2.2, p.2.2)

/-- C9: per pixel, the depth component of `project_points` composed with
`unproject_depth` equals the original depth unconditionally, and with
nonzero depth and focal lengths the full pixel coordinates are recovered as
well — the round trip asserted by `torch.testing.assert_close` in
`run_ray_caster_camera.py`. -/
theorem project_unproject_roundtrip (K : CameraIntrinsics) (u v d : ℚ) :
    (project_points K (unproject_depth K u v d)).2.2 = d ∧
    (d ≠ 0 → K.fx ≠ 0 → K.fy ≠ 0 →
      project_points K (unproject_depth K u v d) = (u, v, d)) := by
  refine ⟨rfl, ?_⟩
  intro hd hfx hfy
  unfold project_points unproject_depth
  refine Prod.ext ?_ (Prod.ext ?_ rfl)
  · show (K.fx * ((u - K.cx) * d / K.fx) + K.cx * d) / d = u
    field_simp
    ring
  · show (K.fy * ((v - K.cy) * d / K.fy) + K.cy * d) / d = v
    field_simp
    ring

/-- Witness for `project_unproject_roundtrip` at a concrete camera and
pixel. -/
theorem project_unproject_roundtrip_witness :
    project_points ⟨2, 3, 10, 20⟩ (unproject_depth ⟨2, 3, 10, 20⟩ 4 5 6) =
      (4, 5, 6) :=
  (project_unproject_roundtrip ⟨2, 3, 10, 20⟩ 4 5 6).2
    (by norm_num) (by norm_num) (by norm_num)

/-- Shallow embedding of `GoToPositionCfg` with its source default values;
floats become real numbers (`math.pi` becomes `Real.pi`), the step count an
integer. -/
structure GoToPositionCfg where
  spawn_min_dist : ℝ := 0.5
  spawn_max_dist : ℝ := 5.0
  spawn_min_heading_dist : ℝ := 0.0
  spawn_max_heading_dist : ℝ := Real.pi
  spawn_min_lin_vel : ℝ := 0.0
  spawn_max_lin_vel : ℝ := 0.0
  spawn_min_ang_vel : ℝ := 0.0
  spawn_max_ang_vel : ℝ := 0.0
  goal_max_dist_from_origin : ℝ := 0.0
  position_tolerance : ℝ := 0.01
  maximum_robot_distance : ℝ := 10.0
  reset_after_n_steps_in_tolerance : Int := 100
  position_exponential_reward_coeff : ℝ := 0.25
  linear_velocity_min_value : ℝ := 0.5
  linear_velocity_max_value : ℝ := 2.0
  angular_velocity_min_value : ℝ := 0.5
  angular_velocity_max_value : ℝ := 20.0
  boundary_exponential_reward_coeff : ℝ := 1.0
  position_weight : ℝ := 1.0
  linear_velocity_weight : ℝ := -0.05
  angular_velocity_weight : ℝ := -0.05
  boundary_weight : ℝ := -10.0

/-- The default `GoToPositionCfg()`. -/
noncomputable def go_to_position_default_cfg : GoToPositionCfg := {}

/-- C10: the default `GoToPositionCfg` satisfies the ordering invariants of
its field pairs (each spawn minimum at most the corresponding maximum), has
a strictly positive position tolerance, and its maximal spawn distance is
strictly below `maximum_robot_distance`. -/
theorem go_to_position_cfg_invariants :
    go_to_position_default_cfg.spawn_min_dist ≤
      go_to_position_default_cfg.spawn_max_dist ∧
    go_to_position_default_cfg.spawn_min_heading_dist ≤
      go_to_position_default_cfg.spawn_max_heading_dist ∧
    go_to_position_default_cfg.spawn_min_lin_vel ≤
      go_to_position_default_cfg.spawn_max_lin_vel ∧
    go_to_position_default_cfg.spawn_min_ang_vel ≤
      go_to_position_default_cfg.spawn_max_ang_vel ∧
    0 < go_to_position_default_cfg.position_tolerance ∧
    go_to_position_default_cfg.spawn_max_dist <
      go_to_position_default_cfg.maximum_robot_distance := by
  refine ⟨?_, ?_, ?_, ?_, ?_, ?_⟩
  · show (0.5 : ℝ) ≤ 5.0
    norm_num
  · show (0.0 : ℝ) ≤ Real.pi
    have h := Real.pi_pos
    norm_num at h ⊢
    linarith
  · show (0.0 : ℝ) ≤ 0.0
    norm_num
  · show (0.0 : ℝ) ≤ 0.0
    norm_num
  · show (0 : ℝ) < 0.01
    norm_num
  · show (5.0 : ℝ) < 10.0
    norm_num

end RansSpec
